import Mathlib

/-!
Verification of the K-Medoids (PAM) clustering core of pyclustering
(`ccore/src/cluster/kmedoids.hpp`).

The repository ships only the header `kmedoids.hpp`: the class declaration,
member defaults, and doc comments. The member function bodies
(`kmedoids.cpp`) and the metric library (`utils/metric.hpp`) are not part of
the sources, so the algorithmic behaviour is modelled from the specification
(`spec.md`), faithfully to its words; definitions that come straight from the
header (the `kmedoids_data_t` enum, the member defaults, the constructor
defaults) are marked as such.

The C++ computes distances in `double`; here the scalar type is any linear
ordered ring `α` (exact arithmetic: `ℚ` matches the spec constants such as the
default tolerance 0.01, `ℤ` is used for concrete evaluations). Point identity
is the dataset index, clusters and medoid sequences are lists of indices,
exactly as in the data model of the spec (§3).
-/

namespace PyKmedoids

/-- A point is an ordered sequence of coordinates (spec §3, "Point"). -/
abbrev Point (α : Type) : Type := List α

/-- A dataset is an ordered sequence of points, indexed 0..n-1 (spec §3);
in DISTANCE_MATRIX mode the same container carries the matrix rows (spec §6). -/
abbrev Dataset (α : Type) : Type := List (Point α)

variable {α : Type} [LinearOrderedRing α]

/-- Input data type selector, from the header: `enum class kmedoids_data_t
{ POINTS, DISTANCE_MATRIX }` (kmedoids.hpp lines 40-43). -/
inductive kmedoids_data_t : Type
  | POINTS
  | DISTANCE_MATRIX
deriving DecidableEq, Repr

/-- Modelled from the spec: the squared Euclidean metric, default metric of the
parameterized constructor (`distance_metric_factory<point>::euclidean_square()`,
kmedoids.hpp line 91); its body lives in the missing `utils/metric.hpp`.
Sum of squared coordinate differences over the paired coordinates. -/
def euclidean_square (a b : Point α) : α :=
  ((a.zip b).map (fun c => (c.1 - c.2) * (c.1 - c.2))).sum

/-- Modelled from the spec: `kmedoids::create_distance_calculator` (declared
kmedoids.hpp lines 161-170, body in the missing kmedoids.cpp; spec §4.1).
Point-mode evaluates the injected metric on the two points; matrix-mode looks
the value up in the matrix carried by the dataset rows. -/
def create_distance_calculator (p_type : kmedoids_data_t) (data : Dataset α)
    (metric : Point α → Point α → α) : ℕ → ℕ → α :=
  match p_type with
  | .POINTS => fun i j => metric (data.getD i []) (data.getD j [])
  | .DISTANCE_MATRIX => fun i j => (data.getD i []).getD j 0

/-- Index of the first minimum of a list of distances: the element returned is
minimal, and every earlier element is strictly larger. This is the tie-break
order shared by Cluster Assignment (spec §4.2, lowest position index) and
Medoid Selection (spec §4.3, lowest candidate index). -/
def firstArgmin : List α → ℕ
  | [] => 0
  | [_] => 0
  | x :: y :: ys =>
    if (y :: ys).getD (firstArgmin (y :: ys)) 0 < x then firstArgmin (y :: ys) + 1 else 0

/-- Modelled from the spec: the per-point part of `kmedoids::update_clusters`
(declared kmedoids.hpp lines 122-128, body in the missing kmedoids.cpp;
spec §4.2): the position, in the medoid sequence, of the medoid nearest to
point `p`, ties resolved to the lowest position index. -/
def assign_point (dist : ℕ → ℕ → α) (medoids : List ℕ) (p : ℕ) : ℕ :=
  firstArgmin (medoids.map (fun m => dist p m))

/-- Modelled from the spec: `kmedoids::update_clusters` (declared kmedoids.hpp
lines 122-128, body in the missing kmedoids.cpp; spec §4.2). Cluster `i`
collects, in increasing index order, the points whose nearest medoid sits at
position `i` of the medoid sequence. -/
def update_clusters (dist : ℕ → ℕ → α) (medoids : List ℕ) (n : ℕ) : List (List ℕ) :=
  (List.range medoids.length).map
    (fun i => (List.range n).filter (fun p => assign_point dist medoids p == i))

/-- Modelled from the spec: total distance from candidate `c` to the members of
its cluster (spec §4.3; the sum includes `c` itself, immaterial under the
zero-diagonal contract of the Distance Provider, spec §4.1). -/
def total_distance (dist : ℕ → ℕ → α) (c : ℕ) (cl : List ℕ) : α :=
  (cl.map (fun m => dist c m)).sum

/-- Modelled from the spec: `kmedoids::calculate_cluster_medoid` (declared
kmedoids.hpp lines 139-148, body in the missing kmedoids.cpp; spec §4.3):
the member of the cluster with minimal total distance to the cluster,
ties resolved to the earliest member, i.e. the lowest dataset index since
clusters are kept in increasing index order. -/
def calculate_cluster_medoid (dist : ℕ → ℕ → α) (cl : List ℕ) : ℕ :=
  cl.getD (firstArgmin (cl.map (fun c => total_distance dist c cl))) 0

/-- Modelled from the spec: `kmedoids::calculate_medoids` (declared
kmedoids.hpp lines 130-137, body in the missing kmedoids.cpp; spec §4.5
RECOMPUTE and §7): one medoid per cluster position; an empty cluster keeps its
previous medoid unchanged (retain, no reseeding). -/
def calculate_medoids (dist : ℕ → ℕ → α) (clusters : List (List ℕ))
    (prev : List ℕ) : List ℕ :=
  (List.range clusters.length).map
    (fun i =>
      if (clusters.getD i []).isEmpty then prev.getD i 0
      else calculate_cluster_medoid dist (clusters.getD i []))

/-- Modelled from the spec: `kmedoids::calculate_changes` (declared
kmedoids.hpp lines 150-159, body in the missing kmedoids.cpp; spec §4.4):
maximum over the positions of the distance between the previous and the new
medoid at that position. -/
def calculate_changes (dist : ℕ → ℕ → α) (prev next : List ℕ) : α :=
  ((List.range prev.length).map
    (fun i => dist (prev.getD i 0) (next.getD i 0))).foldl max 0

/-- Candidate medoid sequence produced by one ASSIGN + RECOMPUTE round
starting from `medoids` (spec §4.5). -/
def candidate_medoids (dist : ℕ → ℕ → α) (n : ℕ) (medoids : List ℕ) : List ℕ :=
  calculate_medoids dist (update_clusters dist medoids n) medoids

/-- Modelled from the spec: the iterate-until-convergence loop of
`kmedoids::process` (declared kmedoids.hpp lines 109-120, body in the missing
kmedoids.cpp; spec §4.5). Each round runs ASSIGN and RECOMPUTE, then CHECK: if
the maximum medoid displacement is at most the tolerance the candidate medoids
are adopted and returned, otherwise they become current and the loop repeats.
The spec imposes no iteration cap, so the loop takes a fuel bound and returns
`none` when the bound is exhausted. -/
def kmedoids_loop (dist : ℕ → ℕ → α) (n : ℕ) (tolerance : α) :
    ℕ → List ℕ → Option (List ℕ)
  | 0, _ => none
  | fuel + 1, medoids =>
    if calculate_changes dist medoids (candidate_medoids dist n medoids) ≤ tolerance then
      some (candidate_medoids dist n medoids)
    else kmedoids_loop dist n tolerance fuel (candidate_medoids dist n medoids)

/-- Modelled from the spec: the INIT validation of `kmedoids::process`
(spec §7, "Invalid configuration"): non-empty dataset, non-empty initial
medoids, every initial medoid in range, no duplicate initial medoids, and in
DISTANCE_MATRIX mode every row as wide as the dataset (the rows themselves are
the matrix, so the row count is the dataset size by construction, spec §6). -/
def valid_configuration (data : Dataset α) (p_type : kmedoids_data_t)
    (initial_medoids : List ℕ) : Bool :=
  !data.isEmpty && !initial_medoids.isEmpty &&
  initial_medoids.all (fun m => m < data.length) &&
  decide initial_medoids.Nodup &&
  (p_type == kmedoids_data_t.POINTS || data.all (fun row => row.length == data.length))

/-- Modelled from the spec: `kmedoids::process` (declared kmedoids.hpp lines
101-120, body in the missing kmedoids.cpp; spec §4.5 and §7). INIT validates
the configuration and builds the distance calculator; the loop then runs until
convergence; on convergence the candidate medoids are adopted and one final
Cluster Assignment against them produces the clusters written to the result.
Configuration errors abort before any iteration with no result written;
`fuel` bounds the number of rounds of the otherwise uncapped loop. -/
def process (data : Dataset α) (p_type : kmedoids_data_t) (initial_medoids : List ℕ)
    (tolerance : α) (metric : Point α → Point α → α) (fuel : ℕ) :
    Except String (List (List ℕ) × List ℕ) :=
  if valid_configuration data p_type initial_medoids then
    match kmedoids_loop (create_distance_calculator p_type data metric)
        data.length tolerance fuel initial_medoids with
    | some medoids =>
      .ok (update_clusters (create_distance_calculator p_type data metric)
            medoids data.length, medoids)
    | none => .error "iteration bound exhausted"
  else .error "invalid configuration"

/-- The algorithm object: the members of class `kmedoids` that determine a run
(kmedoids.hpp lines 62-66). The temporary data/result pointers are borrowed
only during `process` and are not part of the persistent state. -/
structure kmedoids : Type where
  m_initial_medoids : List ℕ
  m_tolerance : ℚ
  m_metric : Point ℚ → Point ℚ → ℚ

/-- The default constructor `kmedoids(void) = default` (kmedoids.hpp line 76):
the members keep their in-class initializers, `m_initial_medoids = { }` and
`m_tolerance = 0.0` (kmedoids.hpp lines 62-64). The default-constructed
`distance_metric<point>` member is left unspecified by the header (metric.hpp
is not among the sources); the constant-zero function stands in for it and no
claim depends on its value. -/
def kmedoids_default : kmedoids :=
  { m_initial_medoids := [], m_tolerance := 0, m_metric := fun _ _ => 0 }

/-- The parameterized constructor (kmedoids.hpp lines 89-91), with its declared
defaults: `p_tolerance = 0.01` and the squared Euclidean metric. -/
def kmedoids_ctor (p_initial_medoids : List ℕ) (p_tolerance : ℚ := 1/100)
    (p_metric : Point ℚ → Point ℚ → ℚ := euclidean_square) : kmedoids :=
  { m_initial_medoids := p_initial_medoids, m_tolerance := p_tolerance,
    m_metric := p_metric }

/-- The n-by-n matrix of pairwise metric values of a dataset, row `i` holding
`metric (data[i]) (data[j])` for each `j` (spec §8, matrix/point equivalence). -/
def pairwise_matrix (metric : Point α → Point α → α) (data : Dataset α) : Dataset α :=
  data.map (fun a => data.map (fun b => metric a b))

/-- Concrete dataset (one-dimensional, integer coordinates) in which the first
assignment round leaves cluster 1 empty: both initial medoids sit on the
duplicate point 0, so every point ties and goes to position 0. -/
def example_data : Dataset ℤ := [[0], [0], [1], [1], [1]]

/-- Point-mode distance calculator over `example_data` with the squared
Euclidean metric. -/
def example_dist : ℕ → ℕ → ℤ :=
  create_distance_calculator kmedoids_data_t.POINTS example_data euclidean_square

/-- Concrete dataset on which a converged run reshuffles clusters in the final
assignment: with initial medoids `[2, 4]` and tolerance `25` the run converges
at once to medoids `[0, 4]`, and point `3` then joins cluster 1, where it has a
strictly smaller total distance than the reported medoid `4`. -/
def optimality_data : Dataset ℤ := [[0], [0], [5], [8], [9], [9]]

/-- Point-mode distance calculator over `optimality_data` with the squared
Euclidean metric. -/
def optimality_dist : ℕ → ℕ → ℤ :=
  create_distance_calculator kmedoids_data_t.POINTS optimality_data euclidean_square

/-- The example scenario of spec §8: two tight groups of three points; k = 2,
initial medoids `[0, 3]`. -/
def spec_example_data : Dataset ℤ :=
  [[0, 0], [1, 0], [0, 1], [10, 10], [11, 10], [10, 11]]

/-- Point-mode distance calculator over `spec_example_data` with the squared
Euclidean metric. -/
def spec_example_dist : ℕ → ℕ → ℤ :=
  create_distance_calculator kmedoids_data_t.POINTS spec_example_data euclidean_square

/-! ### Basic list lemmas -/

theorem getD_of_lt {β : Type _} (l : List β) (i : ℕ) (h : i < l.length) (d : β) :
    l.getD i d = l.get ⟨i, h⟩ := by
  simp [List.getD_eq_getElem?_getD, List.getElem?_eq_getElem h]

theorem getD_map_of_lt {β γ : Type _} (f : β → γ) (l : List β) (i : ℕ)
    (h : i < l.length) (d : β) (e : γ) : (l.map f).getD i e = f (l.getD i d) := by
  simp [List.getD_eq_getElem?_getD, List.getElem?_map,
    List.getElem?_eq_getElem h]

theorem getD_range_of_lt (n i : ℕ) (h : i < n) (d : ℕ) :
    (List.range n).getD i d = i := by
  simp [List.getD_eq_getElem?_getD, List.getElem?_range h]

theorem getD_mem_of_lt {β : Type _} (l : List β) (i : ℕ) (h : i < l.length) (d : β) :
    l.getD i d ∈ l := by
  rw [getD_of_lt l i h d]
  exact List.get_mem l i h

/-! ### Properties of firstArgmin -/

theorem firstArgmin_lt_length : ∀ (l : List α), l ≠ [] → firstArgmin l < l.length
  | [], h => absurd rfl h
  | [_], _ => by simp [firstArgmin]
  | x :: y :: ys, _ => by
    have ih := firstArgmin_lt_length (y :: ys) (by simp)
    simp only [List.length_cons] at ih
    by_cases hc : (y :: ys).getD (firstArgmin (y :: ys)) 0 < x
    · simp only [firstArgmin, if_pos hc, List.length_cons]
      omega
    · simp only [firstArgmin, if_neg hc, List.length_cons]
      omega

theorem firstArgmin_min : ∀ (l : List α) (i : ℕ), i < l.length →
    l.getD (firstArgmin l) 0 ≤ l.getD i 0
  | [], _, h => absurd h (by simp)
  | [x], i, h => by
    have hi : i = 0 := by simpa using Nat.lt_one_iff.mp (by simpa using h)
    subst hi
    simp [firstArgmin]
  | x :: y :: ys, i, h => by
    by_cases hc : (y :: ys).getD (firstArgmin (y :: ys)) 0 < x
    · simp only [firstArgmin, if_pos hc, List.getD_cons_succ]
      cases i with
      | zero => exact le_of_lt (by simpa using hc)
      | succ j =>
        simp only [List.getD_cons_succ]
        exact firstArgmin_min (y :: ys) j (by simpa using h)
    · simp only [firstArgmin, if_neg hc, List.getD_cons_zero]
      cases i with
      | zero => simp
      | succ j =>
        simp only [List.getD_cons_succ]
        exact (le_of_not_lt hc).trans (firstArgmin_min (y :: ys) j (by simpa using h))

theorem firstArgmin_first : ∀ (l : List α) (i : ℕ), i < firstArgmin l →
    l.getD (firstArgmin l) 0 < l.getD i 0
  | [], _, h => absurd h (by simp [firstArgmin])
  | [_], _, h => absurd h (by simp [firstArgmin])
  | x :: y :: ys, i, h => by
    by_cases hc : (y :: ys).getD (firstArgmin (y :: ys)) 0 < x
    · simp only [firstArgmin, if_pos hc] at h ⊢
      simp only [List.getD_cons_succ]
      cases i with
      | zero => simpa using hc
      | succ j =>
        simp only [List.getD_cons_succ]
        exact firstArgmin_first (y :: ys) j (by omega)
    · simp only [firstArgmin, if_neg hc] at h
      omega

/-! ### Folded maxima -/

theorem foldl_max_le_iff : ∀ (l : List α) (a c : α),
    l.foldl max a ≤ c ↔ a ≤ c ∧ ∀ x ∈ l, x ≤ c
  | [], a, c => by simp
  | x :: xs, a, c => by
    rw [List.foldl_cons, foldl_max_le_iff xs (max a x) c, max_le_iff]
    simp only [List.forall_mem_cons]
    tauto

/-! ### Cluster assignment lemmas -/

theorem length_update_clusters (dist : ℕ → ℕ → α) (medoids : List ℕ) (n : ℕ) :
    (update_clusters dist medoids n).length = medoids.length := by
  simp [update_clusters]

theorem getD_update_clusters (dist : ℕ → ℕ → α) (medoids : List ℕ) (n i : ℕ)
    (h : i < medoids.length) :
    (update_clusters dist medoids n).getD i [] =
      (List.range n).filter (fun p => assign_point dist medoids p == i) := by
  unfold update_clusters
  rw [getD_map_of_lt _ _ i (by simpa using h) 0 [], getD_range_of_lt _ i h 0]

theorem assign_point_lt_length (dist : ℕ → ℕ → α) (medoids : List ℕ) (p : ℕ)
    (h : medoids ≠ []) : assign_point dist medoids p < medoids.length := by
  have := firstArgmin_lt_length (medoids.map (fun m => dist p m)) (by simpa using h)
  simpa [assign_point] using this

theorem mem_update_clusters (dist : ℕ → ℕ → α) (medoids : List ℕ) (n p i : ℕ)
    (h : i < medoids.length) :
    p ∈ (update_clusters dist medoids n).getD i [] ↔
      p < n ∧ assign_point dist medoids p = i := by
  rw [getD_update_clusters dist medoids n i h]
  simp [List.mem_filter, List.mem_range]

theorem assign_point_min (dist : ℕ → ℕ → α) (medoids : List ℕ) (p i : ℕ)
    (hi : i < medoids.length) :
    dist p (medoids.getD (assign_point dist medoids p) 0) ≤
      dist p (medoids.getD i 0) := by
  have hne : medoids ≠ [] := by
    intro h
    rw [h] at hi
    exact absurd hi (by simp)
  have hj := assign_point_lt_length dist medoids p hne
  have h1 := firstArgmin_min (medoids.map (fun m => dist p m)) i (by simpa using hi)
  rw [getD_map_of_lt _ _ i hi 0 0] at h1
  rw [getD_map_of_lt _ _ _ (by simpa [assign_point] using hj) 0 0] at h1
  simpa [assign_point] using h1

theorem assign_point_first (dist : ℕ → ℕ → α) (medoids : List ℕ) (p i : ℕ)
    (hi : i < assign_point dist medoids p) :
    dist p (medoids.getD (assign_point dist medoids p) 0) <
      dist p (medoids.getD i 0) := by
  have hne : medoids ≠ [] := by
    intro h
    simp [assign_point, h, firstArgmin] at hi
  have hj := assign_point_lt_length dist medoids p hne
  have h1 := firstArgmin_first (medoids.map (fun m => dist p m)) i
    (by simpa [assign_point] using hi)
  rw [getD_map_of_lt _ _ i (lt_trans hi hj) 0 0] at h1
  rw [getD_map_of_lt _ _ _ (by simpa [assign_point] using hj) 0 0] at h1
  simpa [assign_point] using h1

/-! ### Medoid recomputation lemmas -/

theorem length_calculate_medoids (dist : ℕ → ℕ → α) (clusters : List (List ℕ))
    (prev : List ℕ) : (calculate_medoids dist clusters prev).length = clusters.length := by
  simp [calculate_medoids]

theorem getD_calculate_medoids (dist : ℕ → ℕ → α) (clusters : List (List ℕ))
    (prev : List ℕ) (i : ℕ) (h : i < clusters.length) :
    (calculate_medoids dist clusters prev).getD i 0 =
      if (clusters.getD i []).isEmpty then prev.getD i 0
      else calculate_cluster_medoid dist (clusters.getD i []) := by
  unfold calculate_medoids
  rw [getD_map_of_lt _ _ i (by simpa using h) 0 0, getD_range_of_lt _ i h 0]

theorem length_candidate_medoids (dist : ℕ → ℕ → α) (n : ℕ) (medoids : List ℕ) :
    (candidate_medoids dist n medoids).length = medoids.length := by
  simp [candidate_medoids, length_calculate_medoids, length_update_clusters]

theorem calculate_cluster_medoid_mem (dist : ℕ → ℕ → α) (cl : List ℕ) (h : cl ≠ []) :
    calculate_cluster_medoid dist cl ∈ cl := by
  unfold calculate_cluster_medoid
  apply getD_mem_of_lt
  have := firstArgmin_lt_length (cl.map fun c => total_distance dist c cl)
    (by simpa using h)
  simpa using this

theorem calculate_cluster_medoid_min (dist : ℕ → ℕ → α) (cl : List ℕ) (c : ℕ)
    (hc : c ∈ cl) :
    total_distance dist (calculate_cluster_medoid dist cl) cl ≤
      total_distance dist c cl := by
  obtain ⟨i, hi, rfl⟩ := List.mem_iff_getElem.mp hc
  have hne : cl ≠ [] := by
    intro h
    rw [h] at hi
    exact absurd hi (by simp)
  have hj := firstArgmin_lt_length (cl.map fun c => total_distance dist c cl)
    (by simpa using hne)
  simp only [List.length_map] at hj
  have h1 := firstArgmin_min (cl.map fun c => total_distance dist c cl) i (by simpa using hi)
  rw [getD_map_of_lt _ _ i hi 0 0] at h1
  rw [getD_map_of_lt _ _ _ hj 0 0] at h1
  unfold calculate_cluster_medoid
  rw [getD_of_lt cl i hi 0] at h1
  simp only [List.get_eq_getElem] at h1
  exact h1

theorem calculate_cluster_medoid_tiebreak (dist : ℕ → ℕ → α) (cl : List ℕ)
    (hs : List.Sorted (· < ·) cl) (c : ℕ) (hc : c ∈ cl)
    (heq : total_distance dist c cl = total_distance dist (calculate_cluster_medoid dist cl) cl) :
    calculate_cluster_medoid dist cl ≤ c := by
  obtain ⟨i, hi, rfl⟩ := List.mem_iff_getElem.mp hc
  have hne : cl ≠ [] := by
    intro h
    rw [h] at hi
    exact absurd hi (by simp)
  have hj := firstArgmin_lt_length (cl.map fun c => total_distance dist c cl)
    (by simpa using hne)
  simp only [List.length_map] at hj
  by_cases hij : i < firstArgmin (cl.map fun c => total_distance dist c cl)
  · exfalso
    have h1 := firstArgmin_first (cl.map fun c => total_distance dist c cl) i hij
    rw [getD_map_of_lt _ _ i hi 0 0] at h1
    rw [getD_map_of_lt _ _ _ hj 0 0] at h1
    unfold calculate_cluster_medoid at heq
    rw [getD_of_lt cl i hi 0] at h1
    simp only [List.get_eq_getElem] at h1
    rw [heq] at h1
    exact lt_irrefl _ h1
  · push_neg at hij
    unfold calculate_cluster_medoid
    rw [getD_of_lt cl _ hj 0]
    rcases eq_or_lt_of_le hij with h | h
    · simp [List.get_eq_getElem, h.symm]  -- hmm equality case
    · exact le_of_lt (by
        have := hs.get_strictMono (show (⟨_, hj⟩ : Fin cl.length) < ⟨i, hi⟩ from h)
        simpa using this)

/-! ### Loop lemmas -/

theorem kmedoids_loop_length (dist : ℕ → ℕ → α) (n : ℕ) (tol : α) :
    ∀ (fuel : ℕ) (m meds : List ℕ),
      kmedoids_loop dist n tol fuel m = some meds → meds.length = m.length
  | 0, m, meds => by simp [kmedoids_loop]
  | fuel + 1, m, meds => by
    simp only [kmedoids_loop]
    by_cases hc : calculate_changes dist m (candidate_medoids dist n m) ≤ tol
    · rw [if_pos hc]
      intro h
      cases h
      exact length_candidate_medoids dist n m
    · rw [if_neg hc]
      intro h
      have := kmedoids_loop_length dist n tol fuel (candidate_medoids dist n m) meds h
      rw [this, length_candidate_medoids]

theorem kmedoids_loop_some_candidate (dist : ℕ → ℕ → α) (n : ℕ) (tol : α) :
    ∀ (fuel : ℕ) (m meds : List ℕ), kmedoids_loop dist n tol fuel m = some meds →
      ∃ m', meds = candidate_medoids dist n m' ∧
        calculate_changes dist m' meds ≤ tol
  | 0, m, meds => by simp [kmedoids_loop]
  | fuel + 1, m, meds => by
    simp only [kmedoids_loop]
    by_cases hc : calculate_changes dist m (candidate_medoids dist n m) ≤ tol
    · rw [if_pos hc]
      intro h
      cases h
      exact ⟨m, rfl, hc⟩
    · rw [if_neg hc]
      exact kmedoids_loop_some_candidate dist n tol fuel _ meds

/-! ### Bounds on cluster members and medoids -/

theorem update_clusters_mem_lt (dist : ℕ → ℕ → α) (medoids : List ℕ) (n : ℕ)
    (cl : List ℕ) (hcl : cl ∈ update_clusters dist medoids n) (p : ℕ) (hp : p ∈ cl) :
    p < n := by
  unfold update_clusters at hcl
  obtain ⟨i, _, rfl⟩ := List.mem_map.mp hcl
  exact List.mem_range.mp (List.mem_filter.mp hp).1

theorem candidate_medoids_lt (dist : ℕ → ℕ → α) (n : ℕ) (medoids : List ℕ)
    (hm : ∀ x ∈ medoids, x < n) : ∀ x ∈ candidate_medoids dist n medoids, x < n := by
  intro x hx
  unfold candidate_medoids calculate_medoids at hx
  obtain ⟨i, hi, rfl⟩ := List.mem_map.mp hx
  have hi' : i < (update_clusters dist medoids n).length := List.mem_range.mp hi
  by_cases he : ((update_clusters dist medoids n).getD i []).isEmpty = true
  · simp only [he, if_true]
    have him : i < medoids.length := by rwa [length_update_clusters] at hi'
    exact hm _ (getD_mem_of_lt medoids i him 0)
  · simp only [he, if_false]
    have hne : (update_clusters dist medoids n).getD i [] ≠ [] := by
      simpa [List.isEmpty_iff] using he
    exact update_clusters_mem_lt dist medoids n _ (getD_mem_of_lt _ i hi' [])
      _ (calculate_cluster_medoid_mem dist _ hne)

theorem kmedoids_loop_mem_lt (dist : ℕ → ℕ → α) (n : ℕ) (tol : α) :
    ∀ (fuel : ℕ) (m meds : List ℕ), (∀ x ∈ m, x < n) →
      kmedoids_loop dist n tol fuel m = some meds → ∀ x ∈ meds, x < n
  | 0, m, meds, _, h => by simp [kmedoids_loop] at h
  | fuel + 1, m, meds, hm, h => by
    simp only [kmedoids_loop] at h
    by_cases hc : calculate_changes dist m (candidate_medoids dist n m) ≤ tol
    · rw [if_pos hc] at h
      cases h
      exact candidate_medoids_lt dist n m hm
    · rw [if_neg hc] at h
      exact kmedoids_loop_mem_lt dist n tol fuel _ meds
        (candidate_medoids_lt dist n m hm) h

/-! ### Congruence of the two distance-provider variants -/

theorem assign_point_congr (d1 d2 : ℕ → ℕ → α) (n : ℕ) (medoids : List ℕ) (p : ℕ)
    (hagree : ∀ i j, i < n → j < n → d1 i j = d2 i j)
    (hm : ∀ x ∈ medoids, x < n) (hp : p < n) :
    assign_point d1 medoids p = assign_point d2 medoids p := by
  unfold assign_point
  congr 1
  exact List.map_congr_left (fun m hmem => hagree p m hp (hm m hmem))

theorem update_clusters_congr (d1 d2 : ℕ → ℕ → α) (n : ℕ) (medoids : List ℕ)
    (hagree : ∀ i j, i < n → j < n → d1 i j = d2 i j)
    (hm : ∀ x ∈ medoids, x < n) :
    update_clusters d1 medoids n = update_clusters d2 medoids n := by
  unfold update_clusters
  apply List.map_congr_left
  intro i _
  apply List.filter_congr
  intro p hp
  rw [assign_point_congr d1 d2 n medoids p hagree hm (List.mem_range.mp hp)]

theorem total_distance_congr (d1 d2 : ℕ → ℕ → α) (n : ℕ) (c : ℕ) (cl : List ℕ)
    (hagree : ∀ i j, i < n → j < n → d1 i j = d2 i j)
    (hc : c < n) (hcl : ∀ x ∈ cl, x < n) :
    total_distance d1 c cl = total_distance d2 c cl := by
  unfold total_distance
  congr 1
  exact List.map_congr_left (fun m hm => hagree c m hc (hcl m hm))

theorem calculate_cluster_medoid_congr (d1 d2 : ℕ → ℕ → α) (n : ℕ) (cl : List ℕ)
    (hagree : ∀ i j, i < n → j < n → d1 i j = d2 i j)
    (hcl : ∀ x ∈ cl, x < n) :
    calculate_cluster_medoid d1 cl = calculate_cluster_medoid d2 cl := by
  unfold calculate_cluster_medoid
  rw [List.map_congr_left
    (fun c hc => total_distance_congr d1 d2 n c cl hagree (hcl c hc) hcl)]

theorem calculate_medoids_congr (d1 d2 : ℕ → ℕ → α) (n : ℕ)
    (cls : List (List ℕ)) (prev : List ℕ)
    (hagree : ∀ i j, i < n → j < n → d1 i j = d2 i j)
    (hcls : ∀ cl ∈ cls, ∀ x ∈ cl, x < n) :
    calculate_medoids d1 cls prev = calculate_medoids d2 cls prev := by
  unfold calculate_medoids
  apply List.map_congr_left
  intro i hi
  have hi' : i < cls.length := List.mem_range.mp hi
  by_cases he : ((cls.getD i []).isEmpty : Bool) = true
  · simp only [he, if_true]
  · simp only [he, if_false]
    exact calculate_cluster_medoid_congr d1 d2 n _ hagree
      (hcls _ (getD_mem_of_lt cls i hi' []))

theorem calculate_changes_congr (d1 d2 : ℕ → ℕ → α) (n : ℕ) (prev next : List ℕ)
    (hagree : ∀ i j, i < n → j < n → d1 i j = d2 i j)
    (hp : ∀ x ∈ prev, x < n) (hn : ∀ x ∈ next, x < n)
    (hlen : prev.length ≤ next.length) :
    calculate_changes d1 prev next = calculate_changes d2 prev next := by
  unfold calculate_changes
  congr 1
  apply List.map_congr_left
  intro i hi
  have hi' : i < prev.length := List.mem_range.mp hi
  exact hagree _ _ (hp _ (getD_mem_of_lt prev i hi' 0))
    (hn _ (getD_mem_of_lt next i (lt_of_lt_of_le hi' hlen) 0))

theorem candidate_medoids_congr (d1 d2 : ℕ → ℕ → α) (n : ℕ) (m : List ℕ)
    (hagree : ∀ i j, i < n → j < n → d1 i j = d2 i j)
    (hm : ∀ x ∈ m, x < n) :
    candidate_medoids d1 n m = candidate_medoids d2 n m := by
  unfold candidate_medoids
  rw [update_clusters_congr d1 d2 n m hagree hm]
  exact calculate_medoids_congr d1 d2 n _ m hagree
    (fun cl hcl x hx => update_clusters_mem_lt d2 m n cl hcl x hx)

theorem kmedoids_loop_congr (d1 d2 : ℕ → ℕ → α) (n : ℕ) (tol : α)
    (hagree : ∀ i j, i < n → j < n → d1 i j = d2 i j) :
    ∀ (fuel : ℕ) (m : List ℕ), (∀ x ∈ m, x < n) →
      kmedoids_loop d1 n tol fuel m = kmedoids_loop d2 n tol fuel m
  | 0, _, _ => rfl
  | fuel + 1, m, hm => by
    have hcand := candidate_medoids_congr d1 d2 n m hagree hm
    have hch : calculate_changes d1 m (candidate_medoids d2 n m) =
        calculate_changes d2 m (candidate_medoids d2 n m) :=
      calculate_changes_congr d1 d2 n m _ hagree hm
        (candidate_medoids_lt d2 n m hm)
        (by rw [length_candidate_medoids])
    simp only [kmedoids_loop]
    rw [hcand, hch]
    by_cases hc : calculate_changes d2 m (candidate_medoids d2 n m) ≤ tol
    · rw [if_pos hc, if_pos hc]
    · rw [if_neg hc, if_neg hc]
      exact kmedoids_loop_congr d1 d2 n tol hagree fuel _
        (candidate_medoids_lt d2 n m hm)

/-! ### The pairwise matrix agrees with the point-mode calculator -/

theorem pairwise_matrix_length (metric : Point α → Point α → α) (data : Dataset α) :
    (pairwise_matrix metric data).length = data.length := by
  simp [pairwise_matrix]

theorem pairwise_matrix_agree (metric : Point α → Point α → α) (data : Dataset α)
    (i j : ℕ) (hi : i < data.length) (hj : j < data.length) :
    create_distance_calculator kmedoids_data_t.DISTANCE_MATRIX
        (pairwise_matrix metric data) metric i j =
      create_distance_calculator kmedoids_data_t.POINTS data metric i j := by
  show ((pairwise_matrix metric data).getD i []).getD j 0 =
    metric (data.getD i []) (data.getD j [])
  unfold pairwise_matrix
  rw [getD_map_of_lt _ data i hi [] [], getD_map_of_lt _ data j hj [] 0]

theorem pairwise_matrix_valid (metric : Point α → Point α → α) (data : Dataset α)
    (init : List ℕ) :
    valid_configuration (pairwise_matrix metric data) kmedoids_data_t.DISTANCE_MATRIX init =
      valid_configuration data kmedoids_data_t.POINTS init := by
  unfold valid_configuration
  have hlen := pairwise_matrix_length metric data
  have hisEmpty : (pairwise_matrix metric data).isEmpty = data.isEmpty := by
    unfold pairwise_matrix
    cases data <;> simp
  have hall : (pairwise_matrix metric data).all
      (fun row => row.length == data.length) = true := by
    rw [List.all_eq_true]
    intro row hrow
    unfold pairwise_matrix at hrow
    obtain ⟨a, _, rfl⟩ := List.mem_map.mp hrow
    simp
  rw [hisEmpty, hlen, hall]
  simp

theorem euclidean_square_nonneg (a b : Point α) : 0 ≤ euclidean_square a b := by
  unfold euclidean_square
  apply List.sum_nonneg
  intro x hx
  obtain ⟨c, _, rfl⟩ := List.mem_map.mp hx
  exact mul_self_nonneg _

/-! ### Claims -/

/-- C4: Cluster Assignment sends every point `p` to the cluster whose medoid is
nearest to `p`, and on equal minimal distance the cluster whose medoid occupies
the lowest position index in the medoid sequence wins: the chosen position is
in range, its medoid is at minimal distance from `p`, every strictly earlier
position is at strictly larger distance, and `p` lands in exactly that cluster
of `update_clusters`. -/
theorem C4_assignment_nearest_medoid_tiebreak (dist : ℕ → ℕ → α)
    (medoids : List ℕ) (n p : ℕ) (hm : medoids ≠ []) (hp : p < n) :
    assign_point dist medoids p < medoids.length ∧
    (∀ i, i < medoids.length →
      dist p (medoids.getD (assign_point dist medoids p) 0) ≤
        dist p (medoids.getD i 0)) ∧
    (∀ i, i < assign_point dist medoids p →
      dist p (medoids.getD (assign_point dist medoids p) 0) <
        dist p (medoids.getD i 0)) ∧
    p ∈ (update_clusters dist medoids n).getD (assign_point dist medoids p) [] :=
  ⟨assign_point_lt_length dist medoids p hm,
   fun i hi => assign_point_min dist medoids p i hi,
   fun i hi => assign_point_first dist medoids p i hi,
   (mem_update_clusters dist medoids n p _
     (assign_point_lt_length dist medoids p hm)).mpr ⟨hp, rfl⟩⟩

/-- Witness for C4 at a concrete input: point 0 of `example_data` against the
medoid sequence `[2, 0]` (both hypotheses discharged by computation). -/
theorem C4_assignment_nearest_medoid_tiebreak_witness :
    assign_point example_dist [2, 0] 0 < ([2, 0] : List ℕ).length ∧
    (∀ i, i < ([2, 0] : List ℕ).length →
      example_dist 0 (([2, 0] : List ℕ).getD (assign_point example_dist [2, 0] 0) 0) ≤
        example_dist 0 (([2, 0] : List ℕ).getD i 0)) ∧
    (∀ i, i < assign_point example_dist [2, 0] 0 →
      example_dist 0 (([2, 0] : List ℕ).getD (assign_point example_dist [2, 0] 0) 0) <
        example_dist 0 (([2, 0] : List ℕ).getD i 0)) ∧
    0 ∈ (update_clusters example_dist [2, 0] 5).getD (assign_point example_dist [2, 0] 0) [] :=
  C4_assignment_nearest_medoid_tiebreak example_dist [2, 0] 5 0 (by decide) (by decide)

/-- C2: one round of the iteration loop terminates exactly when the maximum
medoid displacement is at most the tolerance (so a round whose maximum
displacement equals the tolerance exactly is converged), and otherwise the loop
continues from the candidate medoids; the folded maximum is at most `tol` iff
every per-position displacement is (for nonnegative tolerance). -/
theorem C2_convergence_at_most_tolerance (dist : ℕ → ℕ → α) (n : ℕ) (tol : α)
    (fuel : ℕ) (medoids : List ℕ) (htol : 0 ≤ tol) :
    (kmedoids_loop dist n tol (fuel + 1) medoids =
      if calculate_changes dist medoids (candidate_medoids dist n medoids) ≤ tol then
        some (candidate_medoids dist n medoids)
      else kmedoids_loop dist n tol fuel (candidate_medoids dist n medoids)) ∧
    (calculate_changes dist medoids (candidate_medoids dist n medoids) ≤ tol ↔
      ∀ i, i < medoids.length →
        dist (medoids.getD i 0) ((candidate_medoids dist n medoids).getD i 0) ≤ tol) := by
  constructor
  · rfl
  · unfold calculate_changes
    rw [foldl_max_le_iff]
    constructor
    · rintro ⟨-, h⟩ i hi
      exact h _ (List.mem_map.mpr ⟨i, List.mem_range.mpr hi, rfl⟩)
    · intro h
      refine ⟨htol, ?_⟩
      intro x hx
      obtain ⟨i, hi, rfl⟩ := List.mem_map.mp hx
      exact h i (List.mem_range.mp hi)

/-- Witness for C2 at a concrete input: the round of `example_data` starting
from medoids `[1, 0]` with tolerance 1 (its maximum displacement is exactly 1,
and the round is converged). -/
theorem C2_convergence_at_most_tolerance_witness :
    ((kmedoids_loop example_dist 5 1 (9 + 1) [1, 0] =
      if calculate_changes example_dist [1, 0] (candidate_medoids example_dist 5 [1, 0]) ≤ 1 then
        some (candidate_medoids example_dist 5 [1, 0])
      else kmedoids_loop example_dist 5 1 9 (candidate_medoids example_dist 5 [1, 0])) ∧
    (calculate_changes example_dist [1, 0] (candidate_medoids example_dist 5 [1, 0]) ≤ 1 ↔
      ∀ i, i < ([1, 0] : List ℕ).length →
        example_dist (([1, 0] : List ℕ).getD i 0)
          ((candidate_medoids example_dist 5 [1, 0]).getD i 0) ≤ 1)) ∧
    calculate_changes example_dist [1, 0] (candidate_medoids example_dist 5 [1, 0]) = 1 :=
  ⟨C2_convergence_at_most_tolerance example_dist 5 1 9 [1, 0] (by decide), by decide⟩

/-- C5: with at least one medoid, Cluster Assignment produces as many clusters
as medoids, every point index below `n` lies in exactly one cluster, no cluster
repeats an index, every clustered index is below `n`, and the medoid-sequence
length is preserved by the whole loop. Every iteration boundary and the final
result read their clusters off `update_clusters`, so this covers the whole
run. -/
theorem C5_partition_invariant (dist : ℕ → ℕ → α) (medoids : List ℕ) (n : ℕ)
    (hm : medoids ≠ []) :
    (update_clusters dist medoids n).length = medoids.length ∧
    (∀ p, p < n →
      (List.range medoids.length).countP
        (fun i => decide (p ∈ (update_clusters dist medoids n).getD i [])) = 1) ∧
    (∀ cl ∈ update_clusters dist medoids n, cl.Nodup) ∧
    (∀ cl ∈ update_clusters dist medoids n, ∀ p ∈ cl, p < n) ∧
    (∀ tol fuel meds, kmedoids_loop dist n tol fuel medoids = some meds →
      meds.length = medoids.length) := by
  refine ⟨length_update_clusters dist medoids n, ?_, ?_, ?_, ?_⟩
  · intro p hp
    have hcount : ∀ i ∈ List.range medoids.length,
        (decide (p ∈ (update_clusters dist medoids n).getD i []) = true ↔
          (i == assign_point dist medoids p) = true) := by
      intro i hi
      have hi' := List.mem_range.mp hi
      rw [decide_eq_true_eq, beq_iff_eq, mem_update_clusters dist medoids n p i hi']
      constructor
      · exact fun hx => hx.2.symm
      · exact fun hx => ⟨hp, hx.symm⟩
    rw [List.countP_congr hcount]
    exact List.count_eq_one_of_mem (List.nodup_range _)
      (List.mem_range.mpr (assign_point_lt_length dist medoids p hm))
  · intro cl hcl
    unfold update_clusters at hcl
    obtain ⟨i, _, rfl⟩ := List.mem_map.mp hcl
    exact (List.nodup_range n).filter _
  · exact fun cl hcl p hp => update_clusters_mem_lt dist medoids n cl hcl p hp
  · exact fun tol fuel meds h => kmedoids_loop_length dist n tol fuel medoids meds h

/-- Witness for C5 at a concrete input: `example_data` with medoids `[1, 0]`
(the round that leaves cluster 1 empty — the partition invariant holds there
too). -/
theorem C5_partition_invariant_witness :
    (update_clusters example_dist [1, 0] 5).length = ([1, 0] : List ℕ).length ∧
    (∀ p, p < 5 →
      (List.range ([1, 0] : List ℕ).length).countP
        (fun i => decide (p ∈ (update_clusters example_dist [1, 0] 5).getD i [])) = 1) ∧
    (∀ cl ∈ update_clusters example_dist [1, 0] 5, cl.Nodup) ∧
    (∀ cl ∈ update_clusters example_dist [1, 0] 5, ∀ p ∈ cl, p < 5) ∧
    (∀ tol fuel meds, kmedoids_loop example_dist 5 tol fuel [1, 0] = some meds →
      meds.length = ([1, 0] : List ℕ).length) :=
  C5_partition_invariant example_dist [1, 0] 5 (by decide)

/-- C1: whenever `process` writes a result, its clusters are exactly the
nearest-medoid partition (`update_clusters`) induced by the final medoid
sequence: the loop returns the candidate medoids of its last converged
RECOMPUTE, and one additional Cluster Assignment against them produces the
reported clusters. -/
theorem C1_final_assignment_against_adopted_medoids (data : Dataset α)
    (p_type : kmedoids_data_t) (init : List ℕ) (tol : α)
    (metric : Point α → Point α → α) (fuel : ℕ)
    (clusters : List (List ℕ)) (medoids : List ℕ)
    (h : process data p_type init tol metric fuel = .ok (clusters, medoids)) :
    clusters =
      update_clusters (create_distance_calculator p_type data metric) medoids
        data.length ∧
    kmedoids_loop (create_distance_calculator p_type data metric) data.length
      tol fuel init = some medoids ∧
    (∃ m', medoids = candidate_medoids
        (create_distance_calculator p_type data metric) data.length m' ∧
      calculate_changes (create_distance_calculator p_type data metric) m'
        medoids ≤ tol) := by
  unfold process at h
  by_cases hv : valid_configuration data p_type init = true
  · rw [if_pos hv] at h
    split at h
    · rename_i m hl
      have h' := Except.ok.inj h
      have hc : clusters = update_clusters
          (create_distance_calculator p_type data metric) m data.length :=
        (congrArg Prod.fst h').symm
      have hm : m = medoids := congrArg Prod.snd h'
      subst hm
      exact ⟨hc, hl,
        kmedoids_loop_some_candidate _ data.length tol fuel init m hl⟩
    · cases h
  · rw [if_neg hv] at h
    cases h

/-- Witness for C1 at a concrete input: the spec §8 example scenario (two tight
groups), whose run converges to medoids `[0, 3]` and clusters
`[[0, 1, 2], [3, 4, 5]]`. -/
theorem C1_final_assignment_against_adopted_medoids_witness :
    [[0, 1, 2], [3, 4, 5]] =
      update_clusters spec_example_dist [0, 3] spec_example_data.length ∧
    kmedoids_loop spec_example_dist spec_example_data.length 0 20 [0, 3] =
      some [0, 3] ∧
    (∃ m', ([0, 3] : List ℕ) = candidate_medoids spec_example_dist
        spec_example_data.length m' ∧
      calculate_changes spec_example_dist m' [0, 3] ≤ 0) := by
  have h := C1_final_assignment_against_adopted_medoids spec_example_data
    kmedoids_data_t.POINTS [0, 3] (0 : ℤ) euclidean_square 20
    [[0, 1, 2], [3, 4, 5]] [0, 3] rfl
  exact h

/-- C3 (amended): for every non-empty cluster (listed in increasing index
order, as Cluster Assignment produces them), the medoid selected by medoid
recomputation is a member of that cluster with minimal total distance to the
cluster, and among members achieving the minimum the lowest dataset index is
chosen — so no member of the cluster on which recomputation ran has a strictly
smaller total than the computed medoid. -/
theorem C3_medoid_recompute_optimal (dist : ℕ → ℕ → α) (cl : List ℕ)
    (hne : cl ≠ []) (hs : List.Sorted (· < ·) cl) :
    calculate_cluster_medoid dist cl ∈ cl ∧
    (∀ c ∈ cl, total_distance dist (calculate_cluster_medoid dist cl) cl ≤
      total_distance dist c cl) ∧
    (∀ c ∈ cl, total_distance dist c cl =
        total_distance dist (calculate_cluster_medoid dist cl) cl →
      calculate_cluster_medoid dist cl ≤ c) :=
  ⟨calculate_cluster_medoid_mem dist cl hne,
   fun c hc => calculate_cluster_medoid_min dist cl c hc,
   fun c hc heq => calculate_cluster_medoid_tiebreak dist cl hs c hc heq⟩

/-- Witness for the amended C3 at a concrete input: the cluster `[3, 4, 5]` of
`optimality_data`. -/
theorem C3_medoid_recompute_optimal_witness :
    calculate_cluster_medoid optimality_dist [3, 4, 5] ∈ ([3, 4, 5] : List ℕ) ∧
    (∀ c ∈ ([3, 4, 5] : List ℕ),
      total_distance optimality_dist (calculate_cluster_medoid optimality_dist [3, 4, 5])
          [3, 4, 5] ≤ total_distance optimality_dist c [3, 4, 5]) ∧
    (∀ c ∈ ([3, 4, 5] : List ℕ),
      total_distance optimality_dist c [3, 4, 5] =
        total_distance optimality_dist (calculate_cluster_medoid optimality_dist [3, 4, 5])
          [3, 4, 5] →
      calculate_cluster_medoid optimality_dist [3, 4, 5] ≤ c) :=
  C3_medoid_recompute_optimal optimality_dist [3, 4, 5] (by decide) (by decide)

/-- C3 counterexample: the claim's consequence for the final result fails. Over
`optimality_data` with initial medoids `[2, 4]` and tolerance 25 the run
converges in its first round and the final Cluster Assignment reshuffles the
clusters: point 3 joins final cluster 1 = `[2, 3, 4, 5]`, whose reported medoid
is 4, and 3 has a strictly smaller total distance to that cluster (11) than the
reported medoid (17). -/
theorem C3_final_result_counterexample :
    process optimality_data kmedoids_data_t.POINTS [2, 4] (25 : ℤ)
        euclidean_square 10 = .ok ([[0, 1], [2, 3, 4, 5]], [0, 4]) ∧
    ([0, 4] : List ℕ).getD 1 0 = 4 ∧
    (3 : ℕ) ∈ ([2, 3, 4, 5] : List ℕ) ∧ (4 : ℕ) ∈ ([2, 3, 4, 5] : List ℕ) ∧
    total_distance optimality_dist 3 [2, 3, 4, 5] <
      total_distance optimality_dist 4 [2, 3, 4, 5] :=
  ⟨rfl, rfl, by decide, by decide, by decide⟩

/-- C8 (amended): a cluster left empty by an assignment round does not abort
the run and is not reseeded — medoid recomputation keeps the previous medoid of
an empty cluster unchanged (the loop then simply continues; the cluster may
gain members again in later rounds). -/
theorem C8_empty_cluster_keeps_medoid (dist : ℕ → ℕ → α)
    (clusters : List (List ℕ)) (prev : List ℕ) (i : ℕ)
    (hi : i < clusters.length) (he : clusters.getD i [] = []) :
    (calculate_medoids dist clusters prev).getD i 0 = prev.getD i 0 := by
  rw [getD_calculate_medoids dist clusters prev i hi, he]
  simp

/-- Witness for the amended C8 at a concrete input: cluster 1 of the first
round over `example_data` is empty and its medoid is kept. -/
theorem C8_empty_cluster_keeps_medoid_witness :
    (calculate_medoids example_dist (update_clusters example_dist [1, 0] 5)
        [1, 0]).getD 1 0 = ([1, 0] : List ℕ).getD 1 0 :=
  C8_empty_cluster_keeps_medoid example_dist
    (update_clusters example_dist [1, 0] 5) [1, 0] 1 (by decide) (by decide)

/-- C8 counterexample: the claim's retention of the empty cluster to the final
result fails. Over `example_data` the first assignment round leaves cluster 1
empty, yet the run completes normally and every cluster of the final result is
non-empty: points rejoined the previously empty cluster in a later round. -/
theorem C8_empty_cluster_not_retained_counterexample :
    (update_clusters example_dist [1, 0] 5).getD 1 [] = [] ∧
    process example_data kmedoids_data_t.POINTS [1, 0] (0 : ℤ)
        euclidean_square 10 = .ok ([[2, 3, 4], [0, 1]], [2, 0]) ∧
    (∀ cl ∈ ([[2, 3, 4], [0, 1]] : List (List ℕ)), cl ≠ []) :=
  ⟨by decide, rfl, by decide⟩

/-- C7: every invalid configuration — empty dataset, empty initial medoids, an
initial medoid out of range, duplicate initial medoids, or a distance matrix
with a row of the wrong width (the row count is the dataset size by
construction, since the dataset rows are the matrix) — makes `process` fail
during INIT with a configuration error, for every fuel bound, writing no
result. -/
theorem C7_invalid_configuration_fail_fast (data : Dataset α)
    (p_type : kmedoids_data_t) (init : List ℕ) (tol : α)
    (metric : Point α → Point α → α) (fuel : ℕ)
    (h : data = [] ∨ init = [] ∨ (∃ m ∈ init, ¬ m < data.length) ∨
      ¬ init.Nodup ∨
      (p_type = kmedoids_data_t.DISTANCE_MATRIX ∧
        ∃ row ∈ data, row.length ≠ data.length)) :
    process data p_type init tol metric fuel = .error "invalid configuration" := by
  have hv : valid_configuration data p_type init = false := by
    rcases h with h | h | ⟨m, hm, hlt⟩ | h | ⟨hty, row, hrow, hne⟩
    · subst h
      simp [valid_configuration]
    · subst h
      simp [valid_configuration]
    · have hall : init.all (fun m => m < data.length) = false := by
        rw [List.all_eq_false]
        exact ⟨m, hm, by simpa using hlt⟩
      simp [valid_configuration, hall]
    · simp [valid_configuration, decide_eq_false h]
    · subst hty
      have hall : data.all (fun row => row.length == data.length) = false := by
        rw [List.all_eq_false]
        exact ⟨row, hrow, by simpa using hne⟩
      simp [valid_configuration, hall]
  unfold process
  simp [hv]

/-- Witness for C7 at a concrete input: the empty dataset. -/
theorem C7_invalid_configuration_fail_fast_witness :
    process ([] : Dataset ℤ) kmedoids_data_t.POINTS [0] 0 euclidean_square 3 =
      .error "invalid configuration" :=
  C7_invalid_configuration_fail_fast [] kmedoids_data_t.POINTS [0] 0
    euclidean_square 3 (Or.inl rfl)

/-- C9: `process` is a pure function of its inputs in this embedding, so two
executions on identical inputs (dataset, data kind, initial medoids,
tolerance, metric, fuel) produce identical results, ties included. -/
theorem C9_deterministic_results (data : Dataset α) (p_type : kmedoids_data_t)
    (init : List ℕ) (tol : α) (metric : Point α → Point α → α) (fuel : ℕ)
    (r1 r2 : Except String (List (List ℕ) × List ℕ))
    (h1 : process data p_type init tol metric fuel = r1)
    (h2 : process data p_type init tol metric fuel = r2) : r1 = r2 :=
  h1.symm.trans h2

/-- Witness for C9 at a concrete input: two runs of the spec §8 example
scenario. -/
theorem C9_deterministic_results_witness :
    (Except.ok ([[0, 1, 2], [3, 4, 5]], [0, 3]) :
        Except String (List (List ℕ) × List ℕ)) =
      Except.ok ([[0, 1, 2], [3, 4, 5]], [0, 3]) :=
  C9_deterministic_results spec_example_data kmedoids_data_t.POINTS [0, 3]
    (0 : ℤ) euclidean_square 20 _ _ rfl rfl

/-- C6: running in POINTS mode with metric M and running in DISTANCE_MATRIX
mode on the precomputed matrix of pairwise M-distances produce identical
results — same clusters and same final medoid sequence (and identical errors
on invalid configurations or fuel exhaustion) — for every dataset, metric,
initial medoids, tolerance and fuel bound. -/
theorem C6_matrix_point_equivalence (data : Dataset α)
    (metric : Point α → Point α → α) (init : List ℕ) (tol : α) (fuel : ℕ) :
    process data kmedoids_data_t.POINTS init tol metric fuel =
      process (pairwise_matrix metric data) kmedoids_data_t.DISTANCE_MATRIX
        init tol metric fuel := by
  unfold process
  rw [pairwise_matrix_valid metric data init]
  by_cases hv : valid_configuration data kmedoids_data_t.POINTS init = true
  · rw [if_pos hv, if_pos hv]
    have hinit : ∀ x ∈ init, x < data.length := by
      unfold valid_configuration at hv
      simp only [Bool.and_eq_true, List.all_eq_true, decide_eq_true_eq] at hv
      exact hv.1.1.2
    have hagree : ∀ i j, i < data.length → j < data.length →
        create_distance_calculator kmedoids_data_t.DISTANCE_MATRIX
            (pairwise_matrix metric data) metric i j =
          create_distance_calculator kmedoids_data_t.POINTS data metric i j :=
      fun i j hi hj => pairwise_matrix_agree metric data i j hi hj
    rw [pairwise_matrix_length metric data]
    rw [kmedoids_loop_congr _ _ data.length tol hagree fuel init hinit]
    cases hl : kmedoids_loop (create_distance_calculator kmedoids_data_t.POINTS
        data metric) data.length tol fuel init with
    | none => rfl
    | some meds =>
      show Except.ok (update_clusters
          (create_distance_calculator kmedoids_data_t.POINTS data metric)
          meds data.length, meds) =
        Except.ok (update_clusters
          (create_distance_calculator kmedoids_data_t.DISTANCE_MATRIX
            (pairwise_matrix metric data) metric) meds data.length, meds)
      rw [update_clusters_congr _ _ data.length meds hagree
        (kmedoids_loop_mem_lt _ data.length tol fuel init meds hinit hl)]
  · rw [if_neg hv, if_neg hv]

/-- C10: the default constructor leaves `m_tolerance = 0` and an empty initial
medoid sequence (kmedoids.hpp lines 62-64); the documented defaults —
tolerance 0.01 and the squared Euclidean metric — belong to the parameterized
constructor only (kmedoids.hpp lines 89-91); and with tolerance 0 and a
nonnegative distance calculator a round of the loop is converged exactly when
the maximum medoid displacement is exactly zero. -/
theorem C10_default_constructor_zero_tolerance (init : List ℕ)
    (dist : ℕ → ℕ → α) (n fuel : ℕ) (medoids : List ℕ)
    (hnn : ∀ i j, 0 ≤ dist i j) :
    kmedoids_default.m_tolerance = 0 ∧
    kmedoids_default.m_initial_medoids = [] ∧
    (kmedoids_ctor init).m_tolerance = 1 / 100 ∧
    (kmedoids_ctor init).m_metric = euclidean_square ∧
    (kmedoids_loop dist n 0 (fuel + 1) medoids =
      if calculate_changes dist medoids (candidate_medoids dist n medoids) ≤ 0 then
        some (candidate_medoids dist n medoids)
      else kmedoids_loop dist n 0 fuel (candidate_medoids dist n medoids)) ∧
    (calculate_changes dist medoids (candidate_medoids dist n medoids) ≤ 0 ↔
      ∀ i, i < medoids.length →
        dist (medoids.getD i 0) ((candidate_medoids dist n medoids).getD i 0) = 0) := by
  refine ⟨rfl, rfl, rfl, rfl, rfl, ?_⟩
  unfold calculate_changes
  rw [foldl_max_le_iff]
  constructor
  · rintro ⟨-, h⟩ i hi
    exact le_antisymm (h _ (List.mem_map.mpr ⟨i, List.mem_range.mpr hi, rfl⟩))
      (hnn _ _)
  · intro h
    refine ⟨le_refl 0, ?_⟩
    intro x hx
    obtain ⟨i, hi, rfl⟩ := List.mem_map.mp hx
    exact le_of_eq (h i (List.mem_range.mp hi))

/-- Witness for C10 at a concrete input: the squared-Euclidean calculator over
`example_data` (nonnegative by `euclidean_square_nonneg`), starting from the
fixpoint medoids `[2, 0]`. -/
theorem C10_default_constructor_zero_tolerance_witness :
    kmedoids_default.m_tolerance = 0 ∧
    kmedoids_default.m_initial_medoids = [] ∧
    (kmedoids_ctor [0]).m_tolerance = 1 / 100 ∧
    (kmedoids_ctor [0]).m_metric = euclidean_square ∧
    (kmedoids_loop example_dist 5 0 (3 + 1) [2, 0] =
      if calculate_changes example_dist [2, 0] (candidate_medoids example_dist 5 [2, 0]) ≤ 0 then
        some (candidate_medoids example_dist 5 [2, 0])
      else kmedoids_loop example_dist 5 0 3 (candidate_medoids example_dist 5 [2, 0])) ∧
    (calculate_changes example_dist [2, 0] (candidate_medoids example_dist 5 [2, 0]) ≤ 0 ↔
      ∀ i, i < ([2, 0] : List ℕ).length →
        example_dist (([2, 0] : List ℕ).getD i 0)
          ((candidate_medoids example_dist 5 [2, 0]).getD i 0) = 0) :=
  C10_default_constructor_zero_tolerance [0] example_dist 5 3 [2, 0]
    (fun i j => euclidean_square_nonneg _ _)

end PyKmedoids
